import Mathlib

/-!
Verification of the iris metadata module (`lib/iris/common/metadata.py`):
the token validator, the metadata schema record hierarchy, name resolution,
the ordering rule, and the metadata manager factory.

Modelling conventions:
* Python `None`/string field values are `Option String`.
* The `attributes` mapping is an association list `List (String × String)`;
  a Python value that is not a mapping (`None` in practice) is `none`.
* Python exceptions are `Except` errors carrying structured payloads in
  place of formatted message strings.
* The regex `\w` class of the source pattern (a str pattern without
  `re.ASCII`) matches the Unicode word characters, whose property tables
  are beyond this embedding; the model implements its ASCII fragment
  `[A-Za-z0-9_]`, on which it agrees exactly with the source, and the
  matcher theorems are restricted to ASCII strings accordingly.
-/

/-- The first-character class `[a-zA-Z0-9]` of the `_TOKEN_PARSE` regex. -/
def reFirstClass (c : Char) : Bool :=
  ('a' ≤ c && c ≤ 'z') || ('A' ≤ c && c ≤ 'Z') || ('0' ≤ c && c ≤ '9')

/-- The continuation class `[\w.+\-@]` of the `_TOKEN_PARSE` regex.
Python's `\w` (str pattern, no `re.ASCII`) matches the Unicode word
characters; this model implements its ASCII fragment `[A-Za-z0-9_]`, on
which it coincides with the source, so theorems stated through this
definition about the source's matcher carry an all-ASCII hypothesis. -/
def reContClass (c : Char) : Bool :=
  reFirstClass c || c == '_' || c == '.' || c == '+' || c == '-' || c == '@'

/-- Match of the regex body `[a-zA-Z0-9][\w.+\-@]*` against a whole
character sequence. -/
def reCore : List Char → Bool
  | [] => false
  | c :: cs => reFirstClass c && cs.all reContClass

/-- Full anchored match of `_TOKEN_PARSE` against a string.  Python's `$`
(without `re.MULTILINE`) matches at the end of the string or just before a
single trailing newline, so the regex also accepts a matching body followed
by one final `'\n'`.  Through `reContClass`, this is faithful to the
source pattern on ASCII strings; non-ASCII word characters accepted by
the source's Unicode `\w` are outside the modelled fragment. -/
def reFullMatch (s : String) : Bool :=
  reCore s.data || (s.data.getLast? == some '\n' && reCore s.data.dropLast)

/-- Model of `BaseMetadata.token`: return the provided name if it is a
valid token, otherwise `None`; `None` input passes through.  Faithful to
the source on `None` and on ASCII strings (see `reContClass` for the
status of non-ASCII word characters). -/
def BaseMetadata.token (name : Option String) : Option String :=
  match name with
  | none => none
  | some s => if reFullMatch s then some s else none

/-- Spec-side first-character class of the claimed grammar
`^[A-Za-z0-9][A-Za-z0-9_.+\-@]*$`: an (ASCII) alphanumeric character. -/
def specTokenFirst (c : Char) : Bool := c.isAlphanum

/-- Spec-side continuation class of the claimed grammar: alphanumeric,
underscore, dot, plus, minus, or at-sign. -/
def specTokenRest (c : Char) : Bool :=
  c.isAlphanum || c == '_' || c == '.' || c == '+' || c == '-' || c == '@'

/-- The grammar stated by the specification for valid tokens: first
character alphanumeric, remaining characters in the continuation class. -/
def specGrammar (s : String) : Bool :=
  match s.data with
  | [] => false
  | c :: cs => specTokenFirst c && cs.all specTokenRest

/-- An ASCII character: code point below 128.  Delimits the fragment on
which the modelled `\w` agrees with Python's Unicode `\w`. -/
def asciiChar (c : Char) : Bool := c.toNat < 128

theorem reFirstClass_eq_specTokenFirst (c : Char) :
    reFirstClass c = specTokenFirst c := by
  simp only [reFirstClass, specTokenFirst, Char.isAlphanum, Char.isAlpha,
    Char.isDigit, Char.isUpper, Char.isLower]
  rw [Bool.eq_iff_iff]
  simp only [Bool.or_eq_true, Bool.and_eq_true, decide_eq_true_eq, Char.le_def]
  tauto

theorem reContClass_eq_specTokenRest (c : Char) :
    reContClass c = specTokenRest c := by
  simp only [reContClass, specTokenRest, reFirstClass_eq_specTokenFirst,
    specTokenFirst]

/-- Association-list mapping used to model the Python `attributes` dict.
Values are the `str()` renderings of the stored values. -/
abbrev Attrs := List (String × String)

/-- Model of `dict.get(k, dflt)` on an association list. -/
def lookupD (d : Attrs) (k : String) (dflt : String) : String :=
  match d.find? (fun kv => kv.1 == k) with
  | some kv => kv.2
  | none => dflt

/-- Fields of `BaseMetadata` (`_members` of the base class, in declared
order): `standard_name`, `long_name`, `var_name`, `units`, `attributes`. -/
structure BaseMetadata where
  standard_name : Option String
  long_name : Option String
  var_name : Option String
  units : Option String
  attributes : Option Attrs
deriving DecidableEq

/-- Fields of `CellMeasureMetadata`: base fields plus `measure`. -/
structure CellMeasureMetadata extends BaseMetadata where
  measure : Option String
deriving DecidableEq

/-- Fields of `CoordMetadata`: base fields plus `coord_system` and `climatological`. -/
structure CoordMetadata extends BaseMetadata where
  coord_system : Option String
  climatological : Option Bool
deriving DecidableEq

/-- Fields of `CubeMetadata`: base fields plus `cell_methods`. -/
structure CubeMetadata extends BaseMetadata where
  cell_methods : Option String
deriving DecidableEq

/-- A metadata record of any concrete schema class.
`AncillaryVariableMetadata` adds no fields to the base class. -/
inductive Metadata where
  | base (f : BaseMetadata)
  | ancillaryVariable (f : BaseMetadata)
  | cellMeasure (f : CellMeasureMetadata)
  | coord (f : CoordMetadata)
  | cube (f : CubeMetadata)
deriving DecidableEq

/-- The five concrete metadata classes. -/
inductive MetaClass where
  | baseMetadata
  | ancillaryVariableMetadata
  | cellMeasureMetadata
  | coordMetadata
  | cubeMetadata
deriving DecidableEq

/-- Model of `type(record)`: the concrete class of a record. -/
def Metadata.classOf : Metadata → MetaClass
  | .base _ => .baseMetadata
  | .ancillaryVariable _ => .ancillaryVariableMetadata
  | .cellMeasure _ => .cellMeasureMetadata
  | .coord _ => .coordMetadata
  | .cube _ => .cubeMetadata

def Metadata.standard_name : Metadata → Option String
  | .base f => f.standard_name
  | .ancillaryVariable f => f.standard_name
  | .cellMeasure f => f.standard_name
  | .coord f => f.standard_name
  | .cube f => f.standard_name

def Metadata.long_name : Metadata → Option String
  | .base f => f.long_name
  | .ancillaryVariable f => f.long_name
  | .cellMeasure f => f.long_name
  | .coord f => f.long_name
  | .cube f => f.long_name

def Metadata.var_name : Metadata → Option String
  | .base f => f.var_name
  | .ancillaryVariable f => f.var_name
  | .cellMeasure f => f.var_name
  | .coord f => f.var_name
  | .cube f => f.var_name

/-- Python exceptions raised by the module, with structured payloads in
place of the formatted messages. -/
inductive PyError where
  | notMetadataSubclass (got : String)
  | invalidFieldParams (clsName : String) (offending : List String)
  | cannotRetrieveNameToken (record : Metadata)
  | attributesNotMapping (clsName : String)
deriving DecidableEq

/-- Value of `BaseMetadata.DEFAULT_NAME`, the fall-back name. -/
def DEFAULT_NAME : String := "unknown"

/-- Python truthiness of an optional string: `None` and `""` are falsy. -/
def truthy : Option String → Bool
  | none => false
  | some s => s != ""

/-- A Python `or` chain over optional strings: the first truthy operand,
or the last operand if none is truthy. -/
def pyOr : List (Option String) → Option String
  | [] => none
  | [x] => x
  | x :: y :: xs => if truthy x then x else pyOr (y :: xs)

/-- Model of `name(default, token)` on a record, dispatching to
`CubeMetadata.name` for cube records and to `BaseMetadata.name` otherwise.
Returns the Python return value (`.ok`) or the raised exception
(`.error`).  On a cube record whose `attributes` is not a mapping, the
defensive normalization attempts to assign `self.attributes` on the
immutable record, which raises the documented `AttributeError`. -/
def Metadata.name (x : Metadata) (default : Option String) (tok : Bool) :
    Except PyError (Option String) :=
  let d := default.getD DEFAULT_NAME
  let check : Option String → Option String :=
    fun item => if tok then BaseMetadata.token item else item
  match x with
  | .cube c =>
    match c.attributes with
    | none => .error (.attributesNotMapping "CubeMetadata")
    | some attrs =>
      let result := pyOr [check c.standard_name, check c.long_name,
        check c.var_name, check (some (lookupD attrs "STASH" "")),
        check (some d)]
      if tok && result.isNone then .error (.cannotRetrieveNameToken x)
      else .ok result
  | _ =>
    let result := pyOr [check x.standard_name, check x.long_name,
      check x.var_name, check (some d)]
    if tok && result.isNone then .error (.cannotRetrieveNameToken x)
    else .ok result

/-- Python values occurring in the flattened sort-key tuples built by
`BaseMetadata.__lt__`: booleans (presence flags), the field values
(strings or `None`), optional booleans (`climatological`) and mappings
(`attributes`). -/
inductive PyVal where
  | pnone
  | pstr (s : String)
  | pbool (b : Bool)
  | pattrs (d : Attrs)
deriving DecidableEq

/-- Boolean order with `False < True`. -/
def boolLt (a b : Bool) : Bool := !a && b

/-- Python `==` between sort-key elements.  Mappings are modelled as
ordered association lists, so mapping equality is list equality. -/
def pyEq : PyVal → PyVal → Bool
  | .pnone, .pnone => true
  | .pstr a, .pstr b => a == b
  | .pbool a, .pbool b => a == b
  | .pattrs a, .pattrs b => a == b
  | _, _ => false

/-- Python `<` between sort-key elements; `none` models a `TypeError`
(`None` and mappings do not support `<`). -/
def pyLtVal : PyVal → PyVal → Option Bool
  | .pstr a, .pstr b => some (decide (a < b))
  | .pbool a, .pbool b => some (boolLt a b)
  | _, _ => none

/-- Python tuple `<`: the first position where the elements differ
decides; if one tuple is a strict prefix of the other, the shorter one is
smaller. -/
def tupleLt : List PyVal → List PyVal → Option Bool
  | [], [] => some false
  | [], _ :: _ => some true
  | _ :: _, [] => some false
  | a :: xs, b :: ys => if pyEq a b then tupleLt xs ys else pyLtVal a b

def encS : Option String → PyVal
  | none => .pnone
  | some s => .pstr s

def encB : Option Bool → PyVal
  | none => .pnone
  | some b => .pbool b

def encA : Option Attrs → PyVal
  | none => .pnone
  | some d => .pattrs d

/-- The `(value is not None, value)` pair contributed to the sort key by
one field. -/
def keyS (v : Option String) : List PyVal := [.pbool v.isSome, encS v]

def keyB (v : Option Bool) : List PyVal := [.pbool v.isSome, encB v]

def keyA (v : Option Attrs) : List PyVal := [.pbool v.isSome, encA v]

/-- Sort-key contribution of the five base fields, in declared order. -/
def baseKey (f : BaseMetadata) : List PyVal :=
  keyS f.standard_name ++ keyS f.long_name ++ keyS f.var_name ++
    keyS f.units ++ keyA f.attributes

/-- Model of `_sort_key(item)` of `BaseMetadata.__lt__`: for each field of the
record's class, in declared order, the pair `(value is not None, value)`,
flattened into one tuple. -/
def Metadata.sortKey : Metadata → List PyVal
  | .base f => baseKey f
  | .ancillaryVariable f => baseKey f
  | .cellMeasure f => baseKey f.toBaseMetadata ++ keyS f.measure
  | .coord f =>
    baseKey f.toBaseMetadata ++ keyS f.coord_system ++ keyB f.climatological
  | .cube f => baseKey f.toBaseMetadata ++ keyS f.cell_methods

/-- Model of `issubclass(a, b)` on the metadata classes: every class is a subclass
of itself and of `BaseMetadata`. -/
def isSubclass (a b : MetaClass) : Bool := a == b || b == .baseMetadata

/-- Model of `isinstance(x, c)`. -/
def isinstanceOf (x : Metadata) (c : MetaClass) : Bool :=
  isSubclass x.classOf c

/-- Outcome of `x < y` on records: `NotImplemented`, a raised
`TypeError`, or a boolean result. -/
inductive LtResult where
  | notImplemented
  | typeError
  | ok (b : Bool)
deriving DecidableEq

/-- Model of `BaseMetadata.__lt__`: `NotImplemented` unless `other` is an instance
of `self`'s class, otherwise the comparison of the two flattened sort
keys. -/
def Metadata.lt (x y : Metadata) : LtResult :=
  if isinstanceOf y x.classOf then
    match tupleLt x.sortKey y.sortKey with
    | none => .typeError
    | some b => .ok b
  else .notImplemented

/-- The `_fields` list of a metadata class: the ancestor fields in
declared order followed by the class's own additions. -/
def MetaClass.fields : MetaClass → List String
  | .baseMetadata =>
    ["standard_name", "long_name", "var_name", "units", "attributes"]
  | .ancillaryVariableMetadata =>
    ["standard_name", "long_name", "var_name", "units", "attributes"]
  | .cellMeasureMetadata =>
    ["standard_name", "long_name", "var_name", "units", "attributes",
     "measure"]
  | .coordMetadata =>
    ["standard_name", "long_name", "var_name", "units", "attributes",
     "coord_system", "climatological"]
  | .cubeMetadata =>
    ["standard_name", "long_name", "var_name", "units", "attributes",
     "cell_methods"]

/-- Model of `cls.__name__`. -/
def MetaClass.clsName : MetaClass → String
  | .baseMetadata => "BaseMetadata"
  | .ancillaryVariableMetadata => "AncillaryVariableMetadata"
  | .cellMeasureMetadata => "CellMeasureMetadata"
  | .coordMetadata => "CoordMetadata"
  | .cubeMetadata => "CubeMetadata"

/-- A Python class passed to the factory: one of the metadata classes, or
any other class (which is not a subclass of `BaseMetadata`). -/
inductive PyClass where
  | meta (c : MetaClass)
  | other (clsName : String)

/-- A manufactured `MetadataManager` instance: the wrapped metadata class
and the instance attribute store.  The modelled methods only ever read
attributes named in `cls.fields`. -/
structure Manager where
  cls : MetaClass
  state : String → PyVal

/-- Model of `setattr(obj, f, v)` on the attribute store. -/
def setattrF (st : String → PyVal) (f : String) (v : PyVal) :
    String → PyVal :=
  fun g => if g == f then v else st g

/-- Model of `MetadataManagerFactory(cls, **kwargs)`: reject a class that is not a
`BaseMetadata` subclass; reject kwargs whose keys are not fields of
`cls`, reporting every offending key; otherwise manufacture a manager
whose fields are all `None` and then overridden by the kwargs. -/
def MetadataManagerFactory (cls : PyClass) (kwargs : List (String × PyVal)) :
    Except PyError Manager :=
  match cls with
  | .other n => .error (.notMetadataSubclass n)
  | .meta c =>
    let extra := (kwargs.map Prod.fst).filter (fun f => !(c.fields.contains f))
    if extra.isEmpty then
      .ok { cls := c,
            state := kwargs.foldl (fun st fv => setattrF st fv.1 fv.2)
              (c.fields.foldl (fun st f => setattrF st f .pnone)
                (fun _ => .pnone)) }
    else .error (.invalidFieldParams c.clsName extra)

/-- Model of `manager.fields`, delegating to the wrapped class. -/
def Manager.fields (m : Manager) : List String := m.cls.fields

/-- Model of `manager.values`: the snapshot record `cls(**fields)`, represented by
its ordered tuple of field values. -/
def Manager.values (m : Manager) : List PyVal := m.fields.map m.state

/-- Argument of `__eq__`: another manager, or an object without a `cls`
attribute. -/
inductive Comparand where
  | mgr (m : Manager)
  | nonManager

/-- Model of `__eq__`: `NotImplemented` (`none`) against a non-manager-like
object; otherwise class identity, then equality of the `values`
snapshots. -/
def Manager.eqPy (m : Manager) : Comparand → Option Bool
  | .nonManager => none
  | .mgr o => some ((m.cls == o.cls) && (m.values == o.values))

/-- Model of `__getstate__`: the full field-value mapping. -/
def Manager.getstate (m : Manager) : List (String × PyVal) :=
  m.fields.map (fun f => (f, m.state f))

/-- Model of `__setstate__`: assign every field of the pickled state. -/
def Manager.setstate (m : Manager) (st : List (String × PyVal)) : Manager :=
  { m with state := st.foldl (fun s fv => setattrF s fv.1 fv.2) m.state }

/-- The pickling round trip prescribed by `__reduce__`: rebuild via
`MetadataManagerFactory(cls)` and restore the exported state with
`__setstate__(__getstate__())`. -/
def Manager.pickleRoundTrip (m : Manager) : Except PyError Manager :=
  (MetadataManagerFactory (.meta m.cls) []).map
    (fun m0 => m0.setstate m.getstate)

theorem reContClass_funext : reContClass = specTokenRest :=
  funext reContClass_eq_specTokenRest

theorem reCore_data (s : String) : reCore s.data = specGrammar s := by
  rcases s with ⟨l⟩
  cases l with
  | nil => rfl
  | cons c cs =>
    simp [reCore, specGrammar, reFirstClass_eq_specTokenFirst,
      reContClass_funext]

theorem reFullMatch_iff (s : String) :
    reFullMatch s = true ↔
      specGrammar s = true ∨ ∃ t, specGrammar t = true ∧ s = t ++ "\n" := by
  unfold reFullMatch
  rw [Bool.or_eq_true, Bool.and_eq_true, reCore_data]
  constructor
  · rintro (h | ⟨hlast, hcore⟩)
    · exact Or.inl h
    · refine Or.inr ⟨String.mk s.data.dropLast, ?_, ?_⟩
      · rw [← reCore_data]
        exact hcore
      · have hne : s.data ≠ [] := by
          intro h0
          rw [h0] at hlast
          exact absurd hlast (by decide)
        have hl : s.data.getLast? = some '\n' := by
          simpa using hlast
        have hg : s.data.getLast hne = '\n' := by
          rw [List.getLast?_eq_getLast s.data hne] at hl
          exact Option.some_injective _ hl
        rcases s with ⟨l⟩
        apply congrArg String.mk
        show l = l.dropLast ++ "\n".data
        rw [show ("\n" : String).data = ['\n'] from rfl, ← hg,
          List.dropLast_append_getLast]
  · rintro (h | ⟨t, hg, rfl⟩)
    · exact Or.inl h
    · right
      have hdata : (t ++ "\n").data = t.data ++ ['\n'] := rfl
      constructor
      · rw [hdata]
        simp
      · rw [hdata, List.dropLast_concat, ← reCore_data] at *
        exact hg

/-- C2 counterexample: the claim says `token` returns its input iff the
input matches `^[A-Za-z0-9][A-Za-z0-9_.+\-@]*$`, but the Python `$`
anchor also matches just before a single trailing newline, so the string
`"ab\n"` is returned unchanged although it contains a disallowed
character.  The input is pure ASCII, so this is independent of the
Unicode extent of `\w` (which gives a second, non-ASCII failure mode of
the claim: the source also returns strings containing non-ASCII word
characters unchanged). -/
theorem C2_counterexample :
    BaseMetadata.token (some "ab\n") = some "ab\n" ∧
      specGrammar "ab\n" = false := by
  constructor
  · decide
  · decide

/-- C2 (amended): `token(null)` is null, and for every ASCII string `s`,
`token(s)` returns `s` iff `s` matches the grammar
`^[A-Za-z0-9][A-Za-z0-9_.+\-@]*$` or consists of a string matching that
grammar followed by one trailing newline (accepted by Python's `$`
anchor); in every other case `token(s)` is null.  The statement is
restricted to ASCII strings because the source pattern's `\w` is
Unicode-aware and also accepts non-ASCII word characters, which are
outside the modelled fragment; the hypothesis marks that domain
restriction rather than being needed by the model-level proof. -/
theorem C2_token_grammar :
    BaseMetadata.token none = none ∧
      ∀ s : String, s.data.all asciiChar = true →
        (BaseMetadata.token (some s) = some s ↔
          specGrammar s = true ∨
            ∃ t, specGrammar t = true ∧ s = t ++ "\n") ∧
        (BaseMetadata.token (some s) = some s ∨
          BaseMetadata.token (some s) = none) := by
  refine ⟨rfl, fun s _ => ⟨?_, ?_⟩⟩
  · rw [← reFullMatch_iff]
    unfold BaseMetadata.token
    cases hm : reFullMatch s with
    | true => simp [hm]
    | false => simp [hm]
  · unfold BaseMetadata.token
    cases hm : reFullMatch s with
    | true => exact Or.inl (by simp [hm])
    | false => exact Or.inr (by simp [hm])

/-- C2 witness: the ASCII string `"x_1.a"` matches the grammar and is
returned unchanged by `token`. -/
theorem C2_token_grammar_witness :
    ("x_1.a" : String).data.all asciiChar = true ∧
      BaseMetadata.token (some "x_1.a") = some "x_1.a" :=
  ⟨by decide,
    (C2_token_grammar.2 "x_1.a" (by decide)).1.mpr (Or.inl (by decide))⟩

/-- Spec-side name resolution: the first available candidate, where a
candidate is available when it is present and non-empty (Python
truthiness). -/
def firstAvailable : List (Option String) → Option String
  | [] => none
  | none :: rest => firstAvailable rest
  | some s :: rest => if s == "" then firstAvailable rest else some s

theorem pyOr_cons (x : Option String) (l : List (Option String))
    (h : l ≠ []) : pyOr (x :: l) = if truthy x then x else pyOr l := by
  cases l with
  | nil => exact absurd rfl h
  | cons y ys => rfl

theorem pyOr_append_default (l : List (Option String)) (d : String) :
    pyOr (l ++ [some d]) = some ((firstAvailable l).getD d) := by
  induction l with
  | nil => rfl
  | cons c rest ih =>
    rw [List.cons_append, pyOr_cons c (rest ++ [some d]) (by simp)]
    cases c with
    | none => simpa [truthy, firstAvailable] using ih
    | some s =>
      by_cases hs : s = ""
      · subst hs
        simpa [truthy, firstAvailable] using ih
      · simp [truthy, firstAvailable, hs]

/-- C1: with `requireToken` false, `name()` returns the first available
candidate among `standard_name`, `long_name`, `var_name`, and otherwise
the default argument, itself defaulting to `"unknown"` (stated for the
non-Cube schema types, which inherit `BaseMetadata.name` unchanged; the
Cube variant inserts the STASH candidate, claim C4). -/
theorem C1_name_priority (x : Metadata) (d : Option String)
    (h : x.classOf ≠ MetaClass.cubeMetadata) :
    x.name d false =
      .ok (some ((firstAvailable
        [x.standard_name, x.long_name, x.var_name]).getD
          (d.getD DEFAULT_NAME))) := by
  cases x with
  | cube c => exact absurd rfl h
  | base f =>
    show Except.ok (pyOr ([f.standard_name, f.long_name, f.var_name] ++
      [some (d.getD DEFAULT_NAME)])) = _
    rw [pyOr_append_default]
    rfl
  | ancillaryVariable f =>
    show Except.ok (pyOr ([f.standard_name, f.long_name, f.var_name] ++
      [some (d.getD DEFAULT_NAME)])) = _
    rw [pyOr_append_default]
    rfl
  | cellMeasure f =>
    show Except.ok (pyOr ([f.standard_name, f.long_name, f.var_name] ++
      [some (d.getD DEFAULT_NAME)])) = _
    rw [pyOr_append_default]
    rfl
  | coord f =>
    show Except.ok (pyOr ([f.standard_name, f.long_name, f.var_name] ++
      [some (d.getD DEFAULT_NAME)])) = _
    rw [pyOr_append_default]
    rfl

/-- C1 witness: a record with `standard_name=None, long_name="L",
var_name="V"` resolves to `"L"`; a record with all three null resolves to
`"unknown"`. -/
theorem C1_name_priority_witness :
    Metadata.name (.base ⟨none, some "L", some "V", none, none⟩)
        none false = .ok (some "L") ∧
      Metadata.name (.base ⟨none, none, none, none, none⟩)
        none false = .ok (some "unknown") :=
  ⟨C1_name_priority (.base ⟨none, some "L", some "V", none, none⟩) none
      (by decide),
    C1_name_priority (.base ⟨none, none, none, none, none⟩) none
      (by decide)⟩

/-- C4: on a Cube record with a mapping `attributes`, `name()` adds
`str(attributes.get("STASH", ""))` as a candidate after `var_name` and
before the default. -/
theorem C4_cube_stash (c : CubeMetadata) (attrs : Attrs) (d : Option String)
    (h : c.attributes = some attrs) :
    Metadata.name (.cube c) d false =
      .ok (some ((firstAvailable
        [c.standard_name, c.long_name, c.var_name,
          some (lookupD attrs "STASH" "")]).getD
          (d.getD DEFAULT_NAME))) := by
  obtain ⟨⟨sn, ln, vn, un, a⟩, cm⟩ := c
  replace h : a = some attrs := h
  subst h
  show Except.ok (pyOr ([sn, ln, vn, some (lookupD attrs "STASH" "")] ++
    [some (d.getD DEFAULT_NAME)])) = _
  rw [pyOr_append_default]

/-- C4 witness: a Cube record with all three names null and
`attributes={"STASH": "m01s00i004"}` resolves to `"m01s00i004"`. -/
theorem C4_cube_stash_witness :
    Metadata.name
        (.cube ⟨⟨none, none, none, none,
          some [("STASH", "m01s00i004")]⟩, none⟩) none false =
      .ok (some "m01s00i004") :=
  C4_cube_stash ⟨⟨none, none, none, none,
    some [("STASH", "m01s00i004")]⟩, none⟩ [("STASH", "m01s00i004")]
    none rfl

/-- Record update of `standard_name` (same-class record with one field
replaced). -/
def Metadata.setStandardName : Metadata → Option String → Metadata
  | .base f, v => .base { f with standard_name := v }
  | .ancillaryVariable f, v => .ancillaryVariable { f with standard_name := v }
  | .cellMeasure f, v => .cellMeasure { f with standard_name := v }
  | .coord f, v => .coord { f with standard_name := v }
  | .cube f, v => .cube { f with standard_name := v }

/-- Record update of `long_name`. -/
def Metadata.setLongName : Metadata → Option String → Metadata
  | .base f, v => .base { f with long_name := v }
  | .ancillaryVariable f, v => .ancillaryVariable { f with long_name := v }
  | .cellMeasure f, v => .cellMeasure { f with long_name := v }
  | .coord f, v => .coord { f with long_name := v }
  | .cube f, v => .cube { f with long_name := v }

/-- Record update of `var_name`. -/
def Metadata.setVarName : Metadata → Option String → Metadata
  | .base f, v => .base { f with var_name := v }
  | .ancillaryVariable f, v => .ancillaryVariable { f with var_name := v }
  | .cellMeasure f, v => .cellMeasure { f with var_name := v }
  | .coord f, v => .coord { f with var_name := v }
  | .cube f, v => .cube { f with var_name := v }

/-- C10: an empty-string candidate in `standard_name`, `long_name` or
`var_name` is skipped by `name()` (with `requireToken` false) exactly as a
null candidate is, because candidates are combined by truthiness. -/
theorem C10_empty_candidates_skipped (x : Metadata) (d : Option String) :
    (Metadata.name (x.setStandardName (some "")) d false =
        Metadata.name (x.setStandardName none) d false) ∧
      (Metadata.name (x.setLongName (some "")) d false =
        Metadata.name (x.setLongName none) d false) ∧
      (Metadata.name (x.setVarName (some "")) d false =
        Metadata.name (x.setVarName none) d false) := by
  cases x <;> exact ⟨rfl, rfl, rfl⟩

/-- A cube record's `attributes` is a mapping; vacuous for the other
schema types (whose `name()` never inspects `attributes`). -/
def Metadata.attrsOk : Metadata → Bool
  | .cube c => c.attributes.isSome
  | _ => true

/-- The prioritized candidate list traversed by `name()` (Cube records
insert the STASH rendering before the default). -/
def nameCandidates (x : Metadata) (d : Option String) :
    List (Option String) :=
  match x with
  | .cube c =>
    [c.standard_name, c.long_name, c.var_name,
      some (lookupD (c.attributes.getD []) "STASH" ""),
      some (d.getD DEFAULT_NAME)]
  | _ =>
    [x.standard_name, x.long_name, x.var_name, some (d.getD DEFAULT_NAME)]

theorem token_ne_empty {o : Option String} {s : String}
    (h : BaseMetadata.token o = some s) : s ≠ "" := by
  rcases o with _ | t
  · exact absurd h (by simp [BaseMetadata.token])
  · replace h : (if reFullMatch t = true then some t else none) = some s := h
    by_cases hm : reFullMatch t = true
    · rw [if_pos hm] at h
      obtain rfl : t = s := Option.some_injective _ h
      intro h0
      rw [h0] at hm
      exact absurd hm (by decide)
    · rw [if_neg hm] at h
      exact absurd h (by simp)

theorem truthy_token (o : Option String) :
    truthy (BaseMetadata.token o) = (BaseMetadata.token o).isSome := by
  cases h : BaseMetadata.token o with
  | none => rfl
  | some s =>
    have := token_ne_empty h
    simp [truthy, this]

theorem pyOr_map_token (l : List (Option String)) (h : l ≠ []) :
    pyOr (l.map BaseMetadata.token) = l.findSome? BaseMetadata.token := by
  induction l with
  | nil => exact absurd rfl h
  | cons c rest ih =>
    cases rest with
    | nil =>
      show pyOr [BaseMetadata.token c] = _
      cases hc : BaseMetadata.token c <;> simp [pyOr, List.findSome?, hc]
    | cons c2 rest2 =>
      rw [List.map_cons, pyOr_cons _ _ (by simp), List.findSome?_cons]
      cases hc : BaseMetadata.token c with
      | none =>
        rw [hc] at *
        simpa [truthy] using ih (by simp)
      | some s =>
        have hs := token_ne_empty hc
        simp [truthy, hc, hs]

theorem nameTok_eval (cands : List (Option String)) (hl : cands ≠ [])
    (y : Metadata) :
    (if (pyOr (cands.map BaseMetadata.token)).isNone = true
       then Except.error (PyError.cannotRetrieveNameToken y)
       else Except.ok (pyOr (cands.map BaseMetadata.token))) =
      match cands.findSome? BaseMetadata.token with
      | some s => Except.ok (some s)
      | none =>
        Except.error (PyError.cannotRetrieveNameToken y) := by
  rw [pyOr_map_token _ hl]
  cases hf : cands.findSome? BaseMetadata.token <;> simp

/-- C3: with `requireToken` true, every candidate (including the default)
is passed through the token validator and failing candidates are skipped;
if no candidate yields a non-null validated name the call raises an error
identifying the record, and it never returns null. -/
theorem C3_require_token (x : Metadata) (d : Option String) :
    (Metadata.name x d true ≠ .ok none) ∧
      (x.attrsOk = true →
        Metadata.name x d true =
          match (nameCandidates x d).findSome? BaseMetadata.token with
          | some s => Except.ok (some s)
          | none => Except.error (.cannotRetrieveNameToken x)) := by
  have hchar : x.attrsOk = true →
      Metadata.name x d true =
        match (nameCandidates x d).findSome? BaseMetadata.token with
        | some s => Except.ok (some s)
        | none => Except.error (.cannotRetrieveNameToken x) := by
    intro ha
    cases x with
    | base f =>
      exact nameTok_eval [f.standard_name, f.long_name, f.var_name,
        some (d.getD DEFAULT_NAME)] (by simp) _
    | ancillaryVariable f =>
      exact nameTok_eval [f.standard_name, f.long_name, f.var_name,
        some (d.getD DEFAULT_NAME)] (by simp) _
    | cellMeasure f =>
      exact nameTok_eval [f.standard_name, f.long_name, f.var_name,
        some (d.getD DEFAULT_NAME)] (by simp) _
    | coord f =>
      exact nameTok_eval [f.standard_name, f.long_name, f.var_name,
        some (d.getD DEFAULT_NAME)] (by simp) _
    | cube c =>
      obtain ⟨⟨sn, ln, vn, un, a⟩, cm⟩ := c
      replace ha : a.isSome = true := ha
      obtain ⟨attrs, h⟩ := Option.isSome_iff_exists.mp ha
      subst h
      exact nameTok_eval [sn, ln, vn, some (lookupD attrs "STASH" ""),
        some (d.getD DEFAULT_NAME)] (by simp) _
  refine ⟨?_, hchar⟩
  by_cases ha : x.attrsOk = true
  · rw [hchar ha]
    cases hf : (nameCandidates x d).findSome? BaseMetadata.token <;> simp
  · cases x with
    | base f => exact absurd rfl ha
    | ancillaryVariable f => exact absurd rfl ha
    | cellMeasure f => exact absurd rfl ha
    | coord f => exact absurd rfl ha
    | cube c =>
      obtain ⟨⟨sn, ln, vn, un, a⟩, cm⟩ := c
      cases a with
      | none => exact fun hcon => Except.noConfusion hcon
      | some attrs => exact absurd rfl ha

/-- C3 witness: with `requireToken` true, `long_name="bad name"` fails
validation and `var_name="ok_name"` is returned. -/
theorem C3_require_token_witness :
    Metadata.name (.base ⟨none, some "bad name", some "ok_name",
        none, none⟩) none true = .ok (some "ok_name") := by
  have h := (C3_require_token
    (.base ⟨none, some "bad name", some "ok_name", none, none⟩) none).2 rfl
  rw [h]
  rfl

/-- The sort key with the `standard_name` contribution stripped. -/
def sortKeyTail : Metadata → List PyVal
  | .base f =>
    keyS f.long_name ++ keyS f.var_name ++ keyS f.units ++ keyA f.attributes
  | .ancillaryVariable f =>
    keyS f.long_name ++ keyS f.var_name ++ keyS f.units ++ keyA f.attributes
  | .cellMeasure f =>
    keyS f.long_name ++ keyS f.var_name ++ keyS f.units ++
      keyA f.attributes ++ keyS f.measure
  | .coord f =>
    keyS f.long_name ++ keyS f.var_name ++ keyS f.units ++
      keyA f.attributes ++ keyS f.coord_system ++ keyB f.climatological
  | .cube f =>
    keyS f.long_name ++ keyS f.var_name ++ keyS f.units ++
      keyA f.attributes ++ keyS f.cell_methods

theorem sortKey_cons (x : Metadata) :
    x.sortKey = .pbool x.standard_name.isSome ::
      encS x.standard_name :: sortKeyTail x := by
  cases x <;> rfl

theorem lt_of_tupleLt_true (x y : Metadata)
    (hinst : isinstanceOf y x.classOf = true)
    (h : tupleLt x.sortKey y.sortKey = some true) : x.lt y = .ok true := by
  unfold Metadata.lt
  rw [if_pos hinst, h]

theorem tupleLt_flag (xs ys : List PyVal) :
    tupleLt (.pbool false :: xs) (.pbool true :: ys) = some true := rfl

theorem tupleLt_second_strict (s1 s2 : String) (xs ys : List PyVal)
    (h : s1 < s2) :
    tupleLt (.pbool true :: .pstr s1 :: xs)
      (.pbool true :: .pstr s2 :: ys) = some true := by
  have hne : (s1 == s2) = false := beq_eq_false_iff_ne.mpr (ne_of_lt h)
  simp [tupleLt, pyEq, pyLtVal, hne, h]

/-- C5: between two records of the same concrete class, `__lt__` compares
the flattened `(value is not None, value)` sort keys lexicographically: a
record with a null `standard_name` sorts strictly before one with a
non-null `standard_name`, and between two non-null `standard_name`s the
natural string order decides. -/
theorem C5_ordering (x y : Metadata) (h : x.classOf = y.classOf) :
    (x.standard_name = none → y.standard_name.isSome = true →
        x.lt y = .ok true) ∧
      (∀ s1 s2, x.standard_name = some s1 → y.standard_name = some s2 →
        s1 < s2 → x.lt y = .ok true) := by
  have hinst : isinstanceOf y x.classOf = true := by
    unfold isinstanceOf isSubclass
    rw [h]
    simp
  constructor
  · intro h1 h2
    obtain ⟨s, hs⟩ := Option.isSome_iff_exists.mp h2
    apply lt_of_tupleLt_true _ _ hinst
    rw [sortKey_cons x, sortKey_cons y, h1, hs]
    exact tupleLt_flag _ _
  · intro s1 s2 h1 h2 hlt
    apply lt_of_tupleLt_true _ _ hinst
    rw [sortKey_cons x, sortKey_cons y, h1, h2]
    exact tupleLt_second_strict s1 s2 _ _ hlt

/-- C5 witness: the record with fields `(None, "b")` sorts before the
record with fields `("a", "b")` (remaining fields null). -/
theorem C5_ordering_witness :
    Metadata.lt (.base ⟨none, some "b", none, none, none⟩)
      (.base ⟨some "a", some "b", none, none, none⟩) = .ok true :=
  (C5_ordering (.base ⟨none, some "b", none, none, none⟩)
    (.base ⟨some "a", some "b", none, none, none⟩) rfl).1 rfl rfl

theorem isSubclass_iff (a b : MetaClass) :
    isSubclass a b = true ↔ (a = b ∨ b = .baseMetadata) := by
  cases a <;> cases b <;> decide

/-- C9 counterexample: the claim says comparison across different
concrete schema types is undefined/rejected, but a Base record on the
left accepts any record on the right (every schema type is an instance of
the Base class), so a Base record compared with a Coord record produces
an ordering result. -/
theorem C9_counterexample :
    Metadata.lt (.base ⟨none, none, none, none, none⟩)
        (.coord ⟨⟨some "a", none, none, none, none⟩, none, none⟩) =
        .ok true ∧
      Metadata.classOf (.base ⟨none, none, none, none, none⟩) ≠
        Metadata.classOf
          (.coord ⟨⟨some "a", none, none, none, none⟩, none, none⟩) := by
  constructor
  · rfl
  · decide

/-- C9 (amended): `__lt__` yields `NotImplemented` exactly when the right
operand is not an instance of the left operand's class, i.e. when the
left operand is not a Base record and the right operand's class differs
from the left's; in particular records of the same concrete class always
compare, and so does a Base record on the left against any record. -/
theorem C9_lt_dispatch (x y : Metadata) :
    x.lt y = .notImplemented ↔
      (x.classOf ≠ MetaClass.baseMetadata ∧ y.classOf ≠ x.classOf) := by
  unfold Metadata.lt
  by_cases hinst : isinstanceOf y x.classOf = true
  · rw [if_pos hinst]
    constructor
    · intro hcon
      exfalso
      revert hcon
      cases tupleLt x.sortKey y.sortKey <;> intro hcon <;>
        exact LtResult.noConfusion hcon
    · rintro ⟨h1, h2⟩
      exfalso
      rcases (isSubclass_iff _ _).mp hinst with h | h
      · exact h2 h
      · exact h1 h
  · rw [if_neg hinst]
    constructor
    · intro _
      have hnot : ¬(y.classOf = x.classOf ∨
          x.classOf = MetaClass.baseMetadata) :=
        fun hor => hinst ((isSubclass_iff _ _).mpr hor)
      push_neg at hnot
      exact ⟨hnot.2, hnot.1⟩
    · intro _
      rfl

/-- C6: `MetadataManagerFactory` validates eagerly at construction: a
class that is not a metadata subclass is rejected; kwargs with keys
outside the schema's field list are rejected with an error listing every
offending key; a successfully built manager implies every kwarg key was a
schema field (nothing is silently ignored). -/
theorem C6_factory_validation :
    (∀ (n : String) (kwargs : List (String × PyVal)),
        MetadataManagerFactory (.other n) kwargs =
          .error (.notMetadataSubclass n)) ∧
      (∀ (c : MetaClass) (kwargs : List (String × PyVal)),
        (kwargs.map Prod.fst).filter
            (fun f => !(c.fields.contains f)) ≠ [] →
          MetadataManagerFactory (.meta c) kwargs =
            .error (.invalidFieldParams c.clsName
              ((kwargs.map Prod.fst).filter
                (fun f => !(c.fields.contains f))))) ∧
      (∀ (c : MetaClass) (kwargs : List (String × PyVal)) (m : Manager),
        MetadataManagerFactory (.meta c) kwargs = .ok m →
          ∀ f ∈ kwargs.map Prod.fst, f ∈ c.fields) := by
  have h2 : ∀ (c : MetaClass) (kwargs : List (String × PyVal)),
      (kwargs.map Prod.fst).filter
          (fun f => !(c.fields.contains f)) ≠ [] →
        MetadataManagerFactory (.meta c) kwargs =
          .error (.invalidFieldParams c.clsName
            ((kwargs.map Prod.fst).filter
              (fun f => !(c.fields.contains f)))) := by
    intro c kwargs h
    show (if ((kwargs.map Prod.fst).filter
        (fun f => !(c.fields.contains f))).isEmpty = true
      then _ else _) = _
    rw [if_neg (fun he => h (List.isEmpty_iff.mp he))]
  refine ⟨fun n kwargs => rfl, h2, ?_⟩
  intro c kwargs m hok f hf
  by_contra hnot
  have hmem : f ∈ (kwargs.map Prod.fst).filter
      (fun g => !(c.fields.contains g)) := by
    rw [List.mem_filter]
    exact ⟨hf, by simp [hnot]⟩
  rw [h2 c kwargs (List.ne_nil_of_mem hmem)] at hok
  exact Except.noConfusion hok

/-- C6 witness: `MetadataManagerFactory(CoordMetadata, bogus_field=1)`
fails with the schema validation error naming the offending key. -/
theorem C6_factory_validation_witness :
    MetadataManagerFactory (.meta .coordMetadata)
        [("bogus_field", .pstr "1")] =
      .error (.invalidFieldParams "CoordMetadata" ["bogus_field"]) :=
  C6_factory_validation.2.1 .coordMetadata [("bogus_field", .pstr "1")]
    (by decide)

theorem eqPy_of_cls_values (m1 m2 : Manager) (hc : m1.cls = m2.cls)
    (hv : m1.values = m2.values) : m1.eqPy (.mgr m2) = some true := by
  simp [Manager.eqPy, hc, hv]

/-- C7: exporting a manager's field-value mapping and rebuilding a
manager from it (via the `__reduce__` recipe: the factory on the same
class, then `__setstate__`) yields a manager with the same class, the
same exported state, an identical `values` snapshot, and equal to the
original. -/
theorem C7_serialization_round_trip (m : Manager) :
    ∃ m', m.pickleRoundTrip = .ok m' ∧ m'.cls = m.cls ∧
      m'.getstate = m.getstate ∧ m'.values = m.values ∧
      m'.eqPy (.mgr m) = some true := by
  obtain ⟨c, st⟩ := m
  cases c <;>
    exact ⟨_, rfl, rfl, rfl, rfl, eqPy_of_cls_values _ _ rfl rfl⟩

/-- C8: two managers are equal exactly when they wrap the same schema
class and have equal `values` snapshots, unequal otherwise, and
comparison against a non-manager-like object is `NotImplemented`. -/
theorem C8_manager_equality (m1 m2 : Manager) :
    (m1.eqPy (.mgr m2) = some true ↔
        m1.cls = m2.cls ∧ m1.values = m2.values) ∧
      (m1.eqPy (.mgr m2) = some false ↔
        ¬(m1.cls = m2.cls ∧ m1.values = m2.values)) ∧
      m1.eqPy .nonManager = none := by
  refine ⟨?_, ?_, rfl⟩
  · simp [Manager.eqPy]
  · simp [Manager.eqPy, not_and_or]
